import Mathlib

/-!
Shallow embedding of `src/main.rs` of `mcp-server-as-http-node`: the
subprocess bridge that forwards one HTTP request line to a child process
and reads back one reply line.  Rust machine effects (pipe writes, reads,
timeouts, filesystem calls, process exits) are modelled by explicit world
records; strings are Lean `String`s (the program only manipulates UTF-8
text).
-/

/-- Configuration of one launchable MCP server, from the JSON config file
(struct `McpProcessConfig` in `main.rs`).  The `env` HashMap is modelled as
an association list of entries. -/
structure McpProcessConfig where
  command : String
  args : List String
  env : List (String × String)
  repository : Option String
  build_command : Option String

/-- The HTTP request body (struct `McpRequest`). -/
structure McpRequest where
  command : String

/-- The HTTP response body (struct `McpResponse`). -/
structure McpResponse where
  result : String
deriving DecidableEq

/-! ### Environment overlay (`Command::env` / `Command::envs`)

Rust's `tokio::process::Command` keeps a map of explicit environment
overrides; each `.env(k, v)` call inserts `k ↦ v`, a later call for the
same key replacing the earlier value.  The spawned child's environment is
the parent's environment updated with this override map.  We model the
override map as an association list built by `upsert`, and the child's
effective environment as a lookup that prefers the override map. -/

/-- Insert-or-replace one key in an association-list map: the semantics of
one `Command::env(k, v)` call on the builder's override map. -/
def upsert : List (String × String) → String → String → List (String × String)
  | [], k, v => [(k, v)]
  | (k0, v0) :: rest, k, v =>
    if k0 = k then (k, v) :: rest else (k0, v0) :: upsert rest k v

/-- First-match association-list lookup. -/
def envLookup : List (String × String) → String → Option String
  | [], _ => none
  | (k0, v0) :: rest, k => if k = k0 then some v0 else envLookup rest k

/-- Left-biased choice on optional values. -/
def orElseOpt (a b : Option String) : Option String :=
  match a with
  | some v => some v
  | none => b

/-- The override map produced by a sequence of `Command::env` calls,
applied in call order to the initially empty map. -/
def applyEnvCalls (calls : List (String × String)) : List (String × String) :=
  calls.foldl (fun m p => upsert m p.1 p.2) []

/-- Last-occurrence lookup: the value of the final pair with key `k` in a
call sequence, i.e. the value that survives in the override map. -/
def envLast (l : List (String × String)) (k : String) : Option String :=
  envLookup l.reverse k

/-- The `Command::env` call sequence issued at the process-execution call
site (`start_mcp_server_from_config`, `main.rs` lines 265-271):
`command_builder.envs(&server_config.env)` first, then one
`command_builder.env(key, value)` per inherited `env::vars()` entry. -/
def execEnvCalls (config_env inherited : List (String × String)) :
    List (String × String) :=
  config_env ++ inherited

/-- Effective environment seen by the spawned MCP server process for key
`k`: the override map from `execEnvCalls`, falling back to the inherited
parent environment for keys never overridden. -/
def execSpawnEnv (config_env inherited : List (String × String))
    (k : String) : Option String :=
  orElseOpt (envLookup (applyEnvCalls (execEnvCalls config_env inherited)) k)
    (envLookup inherited k)

/-- The `Command::env` call sequence issued at the build-step call site
(`clone_and_build_repository`, `main.rs` lines 96-101):
`build_command.envs(&config.env)` first, then one `build_command.env(key,
value)` per inherited `std::env::vars()` entry. -/
def buildEnvCalls (config_env inherited : List (String × String)) :
    List (String × String) :=
  config_env ++ inherited

/-- Effective environment seen by the spawned build shell for key `k`. -/
def buildSpawnEnv (config_env inherited : List (String × String))
    (k : String) : Option String :=
  orElseOpt (envLookup (applyEnvCalls (buildEnvCalls config_env inherited)) k)
    (envLookup inherited k)

/-! ### Query channel (`McpServerProcess::query`, `main.rs` lines 126-193)

The method serializes the request (via `serde_json::to_string`, used only
for a debug log), writes `request.command + "\n"` to the child's stdin,
flushes, then reads one line from the child's stdout under
`timeout(Duration::from_secs(30), ...)`.  The pipe effects are modelled by
a `QueryWorld` record; the returned pair carries the `Result` value and
the list of payloads passed to `write_all` (the bytes put on the wire). -/

/-- Rust's `char::is_whitespace`, the predicate `str::trim` strips by:
the Unicode `White_Space` property, i.e. tab through carriage return
(U+0009..U+000D), space, next line (U+0085), no-break space (U+00A0),
ogham space mark (U+1680), the en-quad..hair-space range
(U+2000..U+200A), line separator (U+2028), paragraph separator (U+2029),
narrow no-break space (U+202F), medium mathematical space (U+205F) and
ideographic space (U+3000). -/
def isRustWhitespace (c : Char) : Bool :=
  (0x09 ≤ c.toNat && c.toNat ≤ 0x0d) || c.toNat == 0x20 ||
  c.toNat == 0x85 || c.toNat == 0xa0 || c.toNat == 0x1680 ||
  (0x2000 ≤ c.toNat && c.toNat ≤ 0x200a) ||
  c.toNat == 0x2028 || c.toNat == 0x2029 || c.toNat == 0x202f ||
  c.toNat == 0x205f || c.toNat == 0x3000

/-- Drop leading and trailing whitespace from a character list: the
semantics of Rust's `str::trim`. -/
def trimChars (cs : List Char) : List Char :=
  ((cs.dropWhile isRustWhitespace).reverse.dropWhile isRustWhitespace).reverse

/-- Rust's `response_line.trim()`. -/
def rustTrim (s : String) : String :=
  String.mk (trimChars s.data)

/-- Hexadecimal digit characters as produced by `serde_json` (lowercase). -/
def hexDigitChar (n : Nat) : Char :=
  if n < 10 then Char.ofNat (48 + n) else Char.ofNat (87 + n)

/-- One character's JSON string escaping as performed by
`serde_json::to_string`: `"` and `\` are backslash-escaped, the short
control escapes are used for backspace, tab, newline, form feed and
carriage return, other control characters become `\u00XX`, and everything
else is emitted verbatim. -/
def jsonEscapeChar (c : Char) : String :=
  if c = '"' then "\\\""
  else if c = '\\' then "\\\\"
  else if c = '\x08' then "\\b"
  else if c = '\x09' then "\\t"
  else if c = '\x0a' then "\\n"
  else if c = '\x0c' then "\\f"
  else if c = '\x0d' then "\\r"
  else if c.toNat < 32 then
    "\\u00" ++ String.mk [hexDigitChar (c.toNat / 16), hexDigitChar (c.toNat % 16)]
  else String.singleton c

/-- JSON string escaping of a whole string. -/
def jsonEscape (s : String) : String :=
  s.data.foldl (fun acc c => acc ++ jsonEscapeChar c) ""

/-- `serde_json::to_string(request)` for the single-field struct
`McpRequest`: total for this type (string serialization cannot fail), as
the source's `map_err` branch on it is dead for well-formed UTF-8. -/
def serializeRequest (r : McpRequest) : String :=
  "\x7b\"command\":\"" ++ jsonEscape r.command ++ "\"\x7d"

/-- Outcome of the bounded read of one reply line
(`timeout(Duration::from_secs(30), self.stdout.read_line(..))`). -/
inductive ReadOutcome where
  | timeout
  | eofRead
  | lineRead (s : String)
  | readFailed (e : String)

/-- The pipe effects one `query` call can observe: an optional error from
`write_all`, an optional error from `flush`, and the outcome of the
bounded reply read. -/
structure QueryWorld where
  writeErr : Option String
  flushErr : Option String
  readOutcome : ReadOutcome

/-- The fixed reply-read bound, in seconds: `Duration::from_secs(30)`. -/
def queryTimeoutSecs : Nat := 30

/-- The `Result<McpResponse, String>` value computed by
`McpServerProcess::query` (`main.rs` lines 140-192), as a function of the
pipe effects: a write or flush error short-circuits (the `?` operator)
before any read; otherwise the bounded read's outcome is classified. -/
def queryResult (w : QueryWorld) (_request : McpRequest) :
    Except String McpResponse :=
  match w.writeErr with
  | some e => Except.error ("Failed to write to MCP stdin: " ++ e)
  | none =>
    match w.flushErr with
    | some e => Except.error ("Failed to flush MCP stdin: " ++ e)
    | none =>
      match w.readOutcome with
      | ReadOutcome.timeout =>
          Except.error "MCP server response timeout (30 seconds)"
      | ReadOutcome.eofRead =>
          Except.error "MCP server closed the connection (EOF)."
      | ReadOutcome.lineRead s =>
          if (rustTrim s).isEmpty then
            Except.error "MCP server returned an empty line."
          else
            Except.ok { result := rustTrim s }
      | ReadOutcome.readFailed e =>
          Except.error ("Failed to read from MCP stdout: " ++ e)

/-- `McpServerProcess::query` (`main.rs` lines 126-193).  Returns the
`Result<McpResponse, String>` value together with the list of payloads
passed to `stdin.write_all` during the call: the single call at line 142
writes `request.command` followed by one newline (`mcp_message.to_string()
+ "\n"`), whatever the later branches do. -/
def query (w : QueryWorld) (request : McpRequest) :
    Except String McpResponse × List String :=
  let mcp_message := request.command
  let wire := mcp_message ++ "\n"
  (queryResult w request, [wire])

/-! ### Bootstrap provisioning (`clone_and_build_repository`,
`main.rs` lines 49-117)

Filesystem and subprocess effects are modelled by a `CloneWorld` record;
the function returns its `Result<String, _>` value together with the
ordered trace of external effects it performed. -/

/-- Rust's `str::split(sep)` over a character list: the list of (possibly
empty) segments between separator occurrences.  Always non-empty, like the
Rust iterator, which yields at least one item even for the empty string. -/
def splitChar (sep : Char) : List Char → List (List Char)
  | [] => [[]]
  | c :: rest =>
    let r := splitChar sep rest
    if c = sep then [] :: r
    else
      match r with
      | [] => [[c]]
      | s :: ss => (c :: s) :: ss

/-- `repo_url.split('/').last()` (`main.rs` lines 58-61). -/
def rustSplitLast (s : String) : Option String :=
  ((splitChar '/' s.data).getLast?).map (fun cs => String.mk cs)

/-- External effects `clone_and_build_repository` can perform, in order. -/
inductive FsEvent where
  | removeDirAll (path : String)
  | gitClone (url : String) (path : String)
  | runBuildCommand (cmd : String) (dir : String)
deriving DecidableEq

/-- The world `clone_and_build_repository` runs against:
`pathExists` is `tokio::fs::metadata(&clone_path).await.is_ok()`,
`removeErr` an optional error from `remove_dir_all`, `cloneSpawnErr` /
`buildSpawnErr` optional errors launching `git` / `sh`, `cloneSuccess` /
`buildSuccess` the processes' exit-status successes, and `cloneStderr` /
`buildStderr` the lossy-UTF-8 captured stderr of each. -/
structure CloneWorld where
  pathExists : Bool
  removeErr : Option String
  cloneSpawnErr : Option String
  cloneSuccess : Bool
  cloneStderr : String
  buildSpawnErr : Option String
  buildSuccess : Bool
  buildStderr : String

/-- Continuation of `clone_and_build_repository` after the
remove-existing-directory step (`main.rs` lines 73-116): run `git clone`,
then the optional build command. -/
def cloneAfterRemove (w : CloneWorld) (config : McpProcessConfig)
    (repo_url clone_path : String) (tr : List FsEvent) :
    Except String String × List FsEvent :=
  let tr := tr ++ [FsEvent.gitClone repo_url clone_path]
  match w.cloneSpawnErr with
  | some e => (Except.error ("Failed to execute git clone command: " ++ e), tr)
  | none =>
    if !w.cloneSuccess then
      (Except.error ("Git clone failed: " ++ w.cloneStderr), tr)
    else
      match config.build_command with
      | none => (Except.ok clone_path, tr)
      | some build_cmd =>
        let tr := tr ++ [FsEvent.runBuildCommand build_cmd clone_path]
        match w.buildSpawnErr with
        | some e => (Except.error ("Failed to execute build command: " ++ e), tr)
        | none =>
          if !w.buildSuccess then
            (Except.error ("Build failed: " ++ w.buildStderr), tr)
          else
            (Except.ok clone_path, tr)

/-- `clone_and_build_repository` (`main.rs` lines 49-117).  Returns the
`Result<String, _>` value (the checkout path on success) together with
the ordered trace of filesystem / subprocess effects. -/
def clone_and_build_repository (w : CloneWorld) (config : McpProcessConfig)
    (work_dir : String) : Except String String × List FsEvent :=
  match config.repository with
  | none => (Except.error "Repository is None", [])
  | some repo_url =>
    match rustSplitLast repo_url with
    | none => (Except.error "Invalid repository URL", [])
    | some repo_name =>
      let clone_path := work_dir ++ "/" ++ repo_name
      if w.pathExists then
        match w.removeErr with
        | some e =>
            (Except.error ("Failed to remove existing directory: " ++ e),
             [FsEvent.removeDirAll clone_path])
        | none =>
            cloneAfterRemove w config repo_url clone_path
              [FsEvent.removeDirAll clone_path]
      else
        cloneAfterRemove w config repo_url clone_path []

theorem envLookup_append (a b : List (String × String)) (k : String) :
    envLookup (a ++ b) k = orElseOpt (envLookup a k) (envLookup b k) := by
  induction a with
  | nil => rfl
  | cons p t ih =>
      obtain ⟨k0, v0⟩ := p
      simp only [List.cons_append, envLookup]
      by_cases h : k = k0
      · simp [h, orElseOpt]
      · simp [h, ih]

theorem envLookup_upsert_self (m : List (String × String)) (k v : String) :
    envLookup (upsert m k v) k = some v := by
  induction m with
  | nil => simp [upsert, envLookup]
  | cons p t ih =>
      obtain ⟨k0, v0⟩ := p
      by_cases h : k0 = k
      · simp [upsert, h, envLookup]
      · simp [upsert, h, envLookup, Ne.symm h, ih]

theorem envLookup_upsert_ne (m : List (String × String)) (k v k' : String)
    (h : k' ≠ k) : envLookup (upsert m k v) k' = envLookup m k' := by
  induction m with
  | nil => simp [upsert, envLookup, h]
  | cons p t ih =>
      obtain ⟨k0, v0⟩ := p
      by_cases hk : k0 = k
      · subst hk
        simp [upsert, envLookup, h]
      · by_cases hk' : k' = k0
        · simp [upsert, hk, envLookup, hk']
        · simp [upsert, hk, envLookup, hk', ih]

theorem envLookup_foldl_upsert (l : List (String × String))
    (m : List (String × String)) (k : String) :
    envLookup (l.foldl (fun m p => upsert m p.1 p.2) m) k =
      orElseOpt (envLast l k) (envLookup m k) := by
  induction l generalizing m with
  | nil => simp [envLast, orElseOpt, envLookup]
  | cons p t ih =>
      have hrev : envLast (p :: t) k =
          orElseOpt (envLast t k) (envLookup [p] k) := by
        simp only [envLast, List.reverse_cons]
        exact envLookup_append t.reverse [p] k
      simp only [List.foldl_cons, ih]
      rw [hrev]
      cases ht : envLast t k with
      | some v => simp [orElseOpt]
      | none =>
          obtain ⟨k0, v0⟩ := p
          simp only [orElseOpt, envLookup]
          by_cases h : k = k0
          · subst h
            simp [envLookup_upsert_self]
          · simp [h, envLookup_upsert_ne m k0 v0 k h]

theorem envLast_append (a b : List (String × String)) (k : String) :
    envLast (a ++ b) k = orElseOpt (envLast b k) (envLast a k) := by
  simp only [envLast, List.reverse_append]
  exact envLookup_append b.reverse a.reverse k

theorem execSpawnEnv_eval (config_env inherited : List (String × String))
    (k : String) :
    execSpawnEnv config_env inherited k =
      orElseOpt (orElseOpt (envLast inherited k) (envLast config_env k))
        (envLookup inherited k) := by
  simp only [execSpawnEnv, execEnvCalls, applyEnvCalls,
    envLookup_foldl_upsert, envLast_append]
  cases envLast inherited k <;> cases envLast config_env k <;>
    simp [orElseOpt, envLookup]

theorem buildSpawnEnv_eq_execSpawnEnv
    (config_env inherited : List (String × String)) (k : String) :
    buildSpawnEnv config_env inherited k = execSpawnEnv config_env inherited k :=
  rfl

/-! ### Helper lemmas -/

theorem append_ne_of_head (a suffix t : String) (c c' : Char)
    (ha : a.data.head? = some c) (ht : t.data.head? = some c')
    (hcc : c ≠ c') : a ++ suffix ≠ t := by
  intro h
  apply hcc
  have hd := congrArg (fun s : String => s.data.head?) h
  simp only [String.data_append] at hd
  cases had : a.data with
  | nil => rw [had] at ha; cases ha
  | cons x xs =>
      rw [had] at hd ha
      simp only [List.cons_append, List.head?_cons] at hd ha
      have hx : x = c := Option.some.inj ha
      have hx' : x = c' := Option.some.inj (hd.trans ht)
      exact hx.symm.trans hx'

theorem splitChar_ne_nil (sep : Char) (cs : List Char) :
    splitChar sep cs ≠ [] := by
  cases cs with
  | nil => simp [splitChar]
  | cons c rest =>
      simp only [splitChar]
      by_cases h : c = sep
      · simp [h]
      · simp only [h, if_false]
        cases splitChar sep rest <;> simp

theorem rustSplitLast_isSome (s : String) :
    (rustSplitLast s).isSome = true := by
  simp only [rustSplitLast, Option.isSome_map]
  simp [List.getLast?_isSome, splitChar_ne_nil]

theorem splitChar_cons_sep (sep : Char) (l : List Char) :
    splitChar sep (sep :: l) = [] :: splitChar sep l := by
  simp [splitChar]

theorem splitChar_cons_ne (sep d : Char) (l : List Char) (h : d ≠ sep) :
    splitChar sep (d :: l) =
      match splitChar sep l with
      | [] => [[d]]
      | s :: ss => (d :: s) :: ss := by
  simp [splitChar, h]

theorem splitChar_concat_sep (sep : Char) (ds : List Char) :
    splitChar sep (ds ++ [sep]) = splitChar sep ds ++ [[]] := by
  induction ds with
  | nil => simp [splitChar]
  | cons d t ih =>
      rw [List.cons_append]
      by_cases h : d = sep
      · subst h
        rw [splitChar_cons_sep, splitChar_cons_sep, ih, List.cons_append]
      · rw [splitChar_cons_ne sep d _ h, splitChar_cons_ne sep d t h, ih]
        cases hsr : splitChar sep t with
        | nil => exact absurd hsr (splitChar_ne_nil sep t)
        | cons s ss => simp

theorem rustSplitLast_trailing_slash (ds : List Char) :
    rustSplitLast (String.mk (ds ++ ['/'])) = some "" := by
  show ((splitChar '/' (ds ++ ['/'])).getLast?).map (fun cs => String.mk cs) = some ""
  rw [splitChar_concat_sep]
  rw [List.getLast?_append_of_ne_nil _ (by decide)]
  rfl

/-! ### Claims -/

/-- Claim C1, counterexample: at the command-execution call site
(`start_mcp_server_from_config`), a key present in both the config `env`
map and the inherited environment resolves to the inherited value, not the
config value, because every inherited variable is re-applied to the
builder after `envs(&server_config.env)`.  The claim's assertion that
config values take precedence there is false. -/
theorem c1_env_overlay_counterexample :
    execSpawnEnv [("KEY", "from-config")] [("KEY", "from-host")] "KEY" =
      some "from-host" ∧
    execSpawnEnv [("KEY", "from-config")] [("KEY", "from-host")] "KEY" ≠
      some "from-config" := by
  exact ⟨by decide, by decide⟩

/-- Claim C1, amended: at both spawn call sites (command execution and the
build step) the config `env` entries are applied to the builder before the
inherited set, so on key collision the inherited value takes precedence,
while config values take effect for keys absent from the inherited
environment. -/
theorem c1_env_overlay_amended (config_env inherited : List (String × String))
    (k v : String) :
    (envLast inherited k = some v →
      execSpawnEnv config_env inherited k = some v ∧
      buildSpawnEnv config_env inherited k = some v) ∧
    (envLast inherited k = none → envLast config_env k = some v →
      execSpawnEnv config_env inherited k = some v ∧
      buildSpawnEnv config_env inherited k = some v) := by
  have he := execSpawnEnv_eval config_env inherited k
  constructor
  · intro h
    have hx : execSpawnEnv config_env inherited k = some v := by
      rw [he, h]; simp [orElseOpt]
    exact ⟨hx, by rw [buildSpawnEnv_eq_execSpawnEnv]; exact hx⟩
  · intro h1 h2
    have hx : execSpawnEnv config_env inherited k = some v := by
      rw [he, h1, h2]; simp [orElseOpt]
    exact ⟨hx, by rw [buildSpawnEnv_eq_execSpawnEnv]; exact hx⟩

theorem c1_env_overlay_amended_witness :
    (execSpawnEnv [("A", "ca"), ("B", "cb")] [("A", "ha")] "A" = some "ha" ∧
     buildSpawnEnv [("A", "ca"), ("B", "cb")] [("A", "ha")] "A" = some "ha") ∧
    (execSpawnEnv [("A", "ca"), ("B", "cb")] [("A", "ha")] "B" = some "cb" ∧
     buildSpawnEnv [("A", "ca"), ("B", "cb")] [("A", "ha")] "B" = some "cb") :=
  ⟨(c1_env_overlay_amended [("A", "ca"), ("B", "cb")] [("A", "ha")] "A" "ha").1
      (by decide),
   (c1_env_overlay_amended [("A", "ca"), ("B", "cb")] [("A", "ha")] "B" "cb").2
      (by decide) (by decide)⟩

/-- Claim C2, counterexample: for the well-formed non-empty reply line
`"  hi  \n"`, the value returned is `"hi"`, not the literal line minus its
trailing terminator (`"  hi  "`): `str::trim` also strips the interior
leading and trailing spaces. -/
theorem c2_literal_reply_counterexample :
    (query { writeErr := none, flushErr := none,
             readOutcome := ReadOutcome.lineRead "  hi  \n" }
        { command := "x" }).1 = Except.ok { result := "hi" } ∧
    ("hi" : String) ≠ "  hi  " := by
  exact ⟨rfl, by decide⟩

/-- Claim C2, amended: for every successful query whose reply line trims
to a non-empty string, the value returned to the caller is the literal
line with all leading and trailing whitespace (including the trailing line
terminator) removed; the interior of the line is not re-parsed or
re-encoded. -/
theorem c2_literal_reply_amended (w : QueryWorld) (r : McpRequest) (s : String)
    (hw : w.writeErr = none) (hf : w.flushErr = none)
    (ho : w.readOutcome = ReadOutcome.lineRead s)
    (hne : (rustTrim s).isEmpty = false) :
    (query w r).1 = Except.ok { result := rustTrim s } := by
  simp [query, queryResult, hw, hf, ho, hne]

theorem c2_literal_reply_amended_witness :
    (query { writeErr := none, flushErr := none,
             readOutcome := ReadOutcome.lineRead "ok\n" }
        { command := "x" }).1 = Except.ok { result := rustTrim "ok\n" } :=
  c2_literal_reply_amended
    { writeErr := none, flushErr := none,
      readOutcome := ReadOutcome.lineRead "ok\n" }
    { command := "x" } "ok\n" rfl rfl rfl (by decide)

/-- Claim C4: a reply line consisting only of whitespace yields the
empty-line protocol-violation failure, never a success carrying an
empty-string result. -/
theorem c4_empty_line_rejection (w : QueryWorld) (r : McpRequest) (s : String)
    (hw : w.writeErr = none) (hf : w.flushErr = none)
    (ho : w.readOutcome = ReadOutcome.lineRead s)
    (hs : (rustTrim s).isEmpty = true) :
    (query w r).1 = Except.error "MCP server returned an empty line." ∧
    ∀ resp : McpResponse, (query w r).1 ≠ Except.ok resp := by
  have h : (query w r).1 = Except.error "MCP server returned an empty line." := by
    simp [query, queryResult, hw, hf, ho, hs]
  exact ⟨h, fun resp hok => by rw [h] at hok; cases hok⟩

theorem c4_empty_line_rejection_witness :
    ((query { writeErr := none, flushErr := none,
              readOutcome := ReadOutcome.lineRead "\n" }
        { command := "x" }).1 =
      Except.error "MCP server returned an empty line.") ∧
    ((query { writeErr := none, flushErr := none,
              readOutcome := ReadOutcome.lineRead " \x0b\x0c\u0085 \n" }
        { command := "x" }).1 =
      Except.error "MCP server returned an empty line.") :=
  ⟨(c4_empty_line_rejection
      { writeErr := none, flushErr := none,
        readOutcome := ReadOutcome.lineRead "\n" }
      { command := "x" } "\n" rfl rfl rfl (by decide)).1,
   (c4_empty_line_rejection
      { writeErr := none, flushErr := none,
        readOutcome := ReadOutcome.lineRead " \x0b\x0c\u0085 \n" }
      { command := "x" } " \x0b\x0c\u0085 \n" rfl rfl rfl (by decide)).1⟩

/-- Claim C5: a read of zero bytes (child closed its output) yields the
EOF failure, distinguishable from the timeout failure and from the
empty-line protocol violation. -/
theorem c5_eof_failure (w : QueryWorld) (r : McpRequest)
    (hw : w.writeErr = none) (hf : w.flushErr = none)
    (ho : w.readOutcome = ReadOutcome.eofRead) :
    (query w r).1 = Except.error "MCP server closed the connection (EOF)." ∧
    ("MCP server closed the connection (EOF)." : String) ≠
      "MCP server response timeout (30 seconds)" ∧
    ("MCP server closed the connection (EOF)." : String) ≠
      "MCP server returned an empty line." := by
  exact ⟨by simp [query, queryResult, hw, hf, ho], by decide, by decide⟩

theorem c5_eof_failure_witness :
    (query { writeErr := none, flushErr := none,
             readOutcome := ReadOutcome.eofRead }
        { command := "x" }).1 = Except.error "MCP server closed the connection (EOF)." :=
  (c5_eof_failure
    { writeErr := none, flushErr := none, readOutcome := ReadOutcome.eofRead }
    { command := "x" } rfl rfl rfl).1

/-- Claim C6: when the write to the child's stdin fails, or the subsequent
flush fails, the call returns the corresponding write/flush IO failure and
the result is independent of the read outcome — no reply read is attempted
in that call. -/
theorem c6_write_failure_no_read (e : String) (f : Option String)
    (r1 r2 : ReadOutcome) (req : McpRequest) :
    ((query { writeErr := some e, flushErr := f, readOutcome := r1 } req).1 =
      Except.error ("Failed to write to MCP stdin: " ++ e)) ∧
    (query { writeErr := some e, flushErr := f, readOutcome := r1 } req =
      query { writeErr := some e, flushErr := f, readOutcome := r2 } req) ∧
    (∀ e2 : String,
      ((query { writeErr := none, flushErr := some e2, readOutcome := r1 } req).1 =
        Except.error ("Failed to flush MCP stdin: " ++ e2)) ∧
      (query { writeErr := none, flushErr := some e2, readOutcome := r1 } req =
        query { writeErr := none, flushErr := some e2, readOutcome := r2 } req)) := by
  exact ⟨rfl, rfl, fun e2 => ⟨rfl, rfl⟩⟩

/-- Claim C7: after a successful write and flush, the reply read is
bounded by the fixed 30-second timeout, and its expiry yields the timeout
failure, distinct from every other failure kind of the call. -/
theorem c7_timeout_failure (w : QueryWorld) (r : McpRequest)
    (hw : w.writeErr = none) (hf : w.flushErr = none)
    (ho : w.readOutcome = ReadOutcome.timeout) :
    queryTimeoutSecs = 30 ∧
    (query w r).1 = Except.error "MCP server response timeout (30 seconds)" ∧
    ("MCP server response timeout (30 seconds)" : String) ≠
      "MCP server closed the connection (EOF)." ∧
    ("MCP server response timeout (30 seconds)" : String) ≠
      "MCP server returned an empty line." ∧
    (∀ e : String, ("MCP server response timeout (30 seconds)" : String) ≠
      "Failed to write to MCP stdin: " ++ e) ∧
    (∀ e : String, ("MCP server response timeout (30 seconds)" : String) ≠
      "Failed to flush MCP stdin: " ++ e) ∧
    (∀ e : String, ("MCP server response timeout (30 seconds)" : String) ≠
      "Failed to read from MCP stdout: " ++ e) := by
  refine ⟨rfl, by simp [query, queryResult, hw, hf, ho], by decide, by decide, ?_, ?_, ?_⟩
  · intro e
    exact (append_ne_of_head "Failed to write to MCP stdin: " e
      "MCP server response timeout (30 seconds)" 'F' 'M'
      (by decide) (by decide) (by decide)).symm
  · intro e
    exact (append_ne_of_head "Failed to flush MCP stdin: " e
      "MCP server response timeout (30 seconds)" 'F' 'M'
      (by decide) (by decide) (by decide)).symm
  · intro e
    exact (append_ne_of_head "Failed to read from MCP stdout: " e
      "MCP server response timeout (30 seconds)" 'F' 'M'
      (by decide) (by decide) (by decide)).symm

theorem c7_timeout_failure_witness :
    queryTimeoutSecs = 30 ∧
    (query { writeErr := none, flushErr := none,
             readOutcome := ReadOutcome.timeout }
        { command := "x" }).1 = Except.error "MCP server response timeout (30 seconds)" :=
  ⟨(c7_timeout_failure
      { writeErr := none, flushErr := none, readOutcome := ReadOutcome.timeout }
      { command := "x" } rfl rfl rfl).1,
   (c7_timeout_failure
      { writeErr := none, flushErr := none, readOutcome := ReadOutcome.timeout }
      { command := "x" } rfl rfl rfl).2.1⟩

theorem cloneAfterRemove_ne_invalid (w : CloneWorld) (config : McpProcessConfig)
    (repo_url clone_path : String) (tr : List FsEvent) :
    (cloneAfterRemove w config repo_url clone_path tr).1 ≠
      Except.error "Invalid repository URL" := by
  obtain ⟨pe, re, cse, csucc, cstderr, bse, bsucc, bstderr⟩ := w
  cases cse <;> cases csucc <;> cases hb : config.build_command <;>
    cases bse <;> cases bsucc <;>
    simp [cloneAfterRemove, hb] <;>
    intro h <;>
    first
      | exact append_ne_of_head _ _ _ 'F' 'I'
          (by decide) (by decide) (by decide) h
      | exact append_ne_of_head _ _ _ 'G' 'I'
          (by decide) (by decide) (by decide) h
      | exact append_ne_of_head _ _ _ 'B' 'I'
          (by decide) (by decide) (by decide) h

/-- Claim C8: when a repository is configured, provisioning removes a
pre-existing directory at the derived target path before the fetch (the
first two effects, in order, are the recursive removal and the clone), and
a fetch exiting non-zero yields the clone failure carrying the tool's
captured stderr. -/
theorem c8_provisioning (w : CloneWorld) (config : McpProcessConfig)
    (work_dir repo_url repo_name : String)
    (hrepo : config.repository = some repo_url)
    (hname : rustSplitLast repo_url = some repo_name) :
    (w.pathExists = true → w.removeErr = none →
      ((clone_and_build_repository w config work_dir).2).take 2 =
        [FsEvent.removeDirAll (work_dir ++ "/" ++ repo_name),
         FsEvent.gitClone repo_url (work_dir ++ "/" ++ repo_name)]) ∧
    (w.removeErr = none → w.cloneSpawnErr = none → w.cloneSuccess = false →
      (clone_and_build_repository w config work_dir).1 =
        Except.error ("Git clone failed: " ++ w.cloneStderr)) := by
  obtain ⟨pe, re, cse, csucc, cstderr, bse, bsucc, bstderr⟩ := w
  constructor
  · intro hp hr
    simp only at hp hr
    subst hp; subst hr
    simp only [clone_and_build_repository, hrepo, hname, if_true]
    cases cse <;> cases hb : config.build_command <;> cases csucc <;>
      cases bse <;> cases bsucc <;> simp [cloneAfterRemove, hb]
  · intro hr hcs hcf
    simp only at hr hcs hcf
    subst hr; subst hcs; subst hcf
    cases pe <;>
      simp [clone_and_build_repository, hrepo, hname, cloneAfterRemove]

theorem c8_provisioning_witness :
    ((clone_and_build_repository
        { pathExists := true, removeErr := none, cloneSpawnErr := none,
          cloneSuccess := false, cloneStderr := "boom", buildSpawnErr := none,
          buildSuccess := true, buildStderr := "" }
        { command := "node", args := [], env := [],
          repository := some "https://example.com/owner/repo",
          build_command := none }
        "/tmp/mcp-servers").2).take 2 =
      [FsEvent.removeDirAll ("/tmp/mcp-servers" ++ "/" ++ "repo"),
       FsEvent.gitClone "https://example.com/owner/repo"
         ("/tmp/mcp-servers" ++ "/" ++ "repo")] ∧
    (clone_and_build_repository
        { pathExists := true, removeErr := none, cloneSpawnErr := none,
          cloneSuccess := false, cloneStderr := "boom", buildSpawnErr := none,
          buildSuccess := true, buildStderr := "" }
        { command := "node", args := [], env := [],
          repository := some "https://example.com/owner/repo",
          build_command := none }
        "/tmp/mcp-servers").1 = Except.error ("Git clone failed: " ++ "boom") :=
  ⟨(c8_provisioning
      { pathExists := true, removeErr := none, cloneSpawnErr := none,
        cloneSuccess := false, cloneStderr := "boom", buildSpawnErr := none,
        buildSuccess := true, buildStderr := "" }
      { command := "node", args := [], env := [],
        repository := some "https://example.com/owner/repo",
        build_command := none }
      "/tmp/mcp-servers" "https://example.com/owner/repo" "repo"
      rfl (by decide)).1 rfl rfl,
   (c8_provisioning
      { pathExists := true, removeErr := none, cloneSpawnErr := none,
        cloneSuccess := false, cloneStderr := "boom", buildSpawnErr := none,
        buildSuccess := true, buildStderr := "" }
      { command := "node", args := [], env := [],
        repository := some "https://example.com/owner/repo",
        build_command := none }
      "/tmp/mcp-servers" "https://example.com/owner/repo" "repo"
      rfl (by decide)).2 rfl rfl rfl⟩

/-- Claim C9: the bytes written to the child's stdin are exactly the
request's `command` field followed by a single newline; the JSON
serialization of the request computed at the start of `query` is never
among the written payloads; and no check rejects a `command` with an
embedded newline, so such a command puts more than one line on the wire. -/
theorem c9_wire_format (w : QueryWorld) (req : McpRequest) :
    (query w req).2 = [req.command ++ "\n"] ∧
    serializeRequest req ∉ (query w req).2 ∧
    (∀ pre post : String, req.command = pre ++ "\n" ++ post →
      2 ≤ (req.command ++ "\n").data.count '\n') := by
  refine ⟨rfl, ?_, ?_⟩
  · simp only [query, List.mem_singleton]
    intro h
    have hl1 : (req.command ++ "\n").data.getLast? = some '\n' := by
      rw [String.data_append, List.getLast?_append_of_ne_nil _ (by decide)]
      decide
    have hl2 : (serializeRequest req).data.getLast? = some (Char.ofNat 125) := by
      show ((("\x7b\"command\":\"" ++ jsonEscape req.command) ++ "\"\x7d")).data.getLast? =
        some (Char.ofNat 125)
      rw [String.data_append, List.getLast?_append_of_ne_nil _ (by decide)]
      decide
    rw [h, hl1] at hl2
    exact absurd hl2 (by decide)
  · intro pre post hcmd
    rw [hcmd]
    simp only [String.data_append, List.count_append]
    have hn : (("\n" : String).data).count '\n' = 1 := by decide
    simp only [hn]
    omega

theorem c9_wire_format_witness :
    (query { writeErr := none, flushErr := none,
             readOutcome := ReadOutcome.eofRead }
        { command := "a\nb" }).2 = ["a\nb" ++ "\n"] ∧
    2 ≤ (("a\nb" : String) ++ "\n").data.count '\n' :=
  ⟨(c9_wire_format
      { writeErr := none, flushErr := none, readOutcome := ReadOutcome.eofRead }
      { command := "a\nb" }).1,
   (c9_wire_format
      { writeErr := none, flushErr := none, readOutcome := ReadOutcome.eofRead }
      { command := "a\nb" }).2.2 "a" "b" (by decide)⟩

/-- Claim C10: splitting any non-empty repository URL on '/' always has a
last segment, so the `Invalid repository URL` branch is unreachable for a
configured repository; a URL ending in '/' yields the empty final segment,
so the clone target path is the work directory itself with a trailing
slash, and that path is what gets removed recursively when it exists. -/
theorem c10_url_last_segment (repo_url : String) (hne : repo_url ≠ "") :
    (rustSplitLast repo_url).isSome = true ∧
    (∀ (w : CloneWorld) (config : McpProcessConfig) (work_dir : String),
      config.repository = some repo_url →
      (clone_and_build_repository w config work_dir).1 ≠
        Except.error "Invalid repository URL") ∧
    (∀ ds : List Char, repo_url.data = ds ++ ['/'] →
      rustSplitLast repo_url = some "" ∧
      ∀ (w : CloneWorld) (config : McpProcessConfig) (work_dir : String),
        config.repository = some repo_url → w.pathExists = true →
        FsEvent.removeDirAll (work_dir ++ "/") ∈
          (clone_and_build_repository w config work_dir).2) := by
  refine ⟨rustSplitLast_isSome repo_url, ?_, ?_⟩
  · intro w config work_dir hrepo
    obtain ⟨nm, hnm⟩ := Option.isSome_iff_exists.mp (rustSplitLast_isSome repo_url)
    obtain ⟨pe, re, cse, csucc, cstderr, bse, bsucc, bstderr⟩ := w
    cases pe <;> cases re <;>
      simp only [clone_and_build_repository, hnm, hrepo, Bool.false_eq_true,
        if_true, if_false] <;>
      first
        | exact cloneAfterRemove_ne_invalid _ config repo_url _ _
        | (intro h
           simp only [Prod.fst, Except.error.injEq] at h
           exact append_ne_of_head _ _ _ 'F' 'I'
             (by decide) (by decide) (by decide) h)
  · intro ds hds
    have hurl : repo_url = String.mk (ds ++ ['/']) := by
      cases repo_url with
      | mk d =>
          simp only [String.data] at hds
          rw [hds]
    have hlast : rustSplitLast repo_url = some "" := by
      rw [hurl]; exact rustSplitLast_trailing_slash ds
    refine ⟨hlast, ?_⟩
    intro w config work_dir hrepo hpe
    obtain ⟨pe, re, cse, csucc, cstderr, bse, bsucc, bstderr⟩ := w
    simp only at hpe
    subst hpe
    cases re <;> cases cse <;> cases hb : config.build_command <;>
      cases csucc <;> cases bse <;> cases bsucc <;>
      simp [clone_and_build_repository, hrepo, hlast, cloneAfterRemove, hb,
        String.append_empty]

theorem c10_url_last_segment_witness :
    (rustSplitLast "a/").isSome = true ∧ rustSplitLast "a/" = some "" :=
  ⟨(c10_url_last_segment "a/" (by decide)).1,
   ((c10_url_last_segment "a/" (by decide)).2.2 ['a'] (by decide)).1⟩
